import Mathlib

/-!
Shallow embedding of the `andallen/backtester` repository.

Prices and capital amounts are embedded as exact rationals (`ℚ`), idealising
Python floats; a pandas `DataFrame` of bars is embedded as a `List Row`
together with parallel derived columns (`capital_log`, `trade_log`) carried in
the explicit algorithm state.  Stateful Python methods become pure state
transformers.
-/

namespace Backtester

/-- One bar of the historical data.  Only the columns actually read by the
trade-simulation engine are carried: `"Open time"` (unique key used by
`log_trade`) and `"Open"` (the price every decision and execution uses). -/
structure Row where
  open_time : ℕ
  open_price : ℚ
  deriving DecidableEq, Repr

/-- The dictionary returned by `TradeExecution.execute_entry` and stored in
`Algorithm.current_trade` (its `"type"` field is always `"entry"`). -/
structure EntryTrade where
  time : ℕ
  entry_capital : ℚ
  entry_price : ℚ
  deriving DecidableEq, Repr

/-- A trade-log record: one of the three dictionary shapes built by
`TradeExecution.execute_entry` / `TradeExecution.execute_exit`. -/
inductive Trade where
  | entry (time : ℕ) (entry_capital entry_price : ℚ)
  | exit (time : ℕ) (exit_price exit_capital : ℚ)
  | exit_stop_limit (time : ℕ) (exit_capital : ℚ)
  deriving DecidableEq, Repr

/-- The `"time"` field of a trade dictionary. -/
def Trade.time : Trade → ℕ
  | .entry t _ _ => t
  | .exit t _ _ => t
  | .exit_stop_limit t _ => t

/-- The `"exit_capital"` field of an exit trade dictionary (0 for entries,
which never have one). -/
def Trade.exit_capital : Trade → ℚ
  | .entry _ _ _ => 0
  | .exit _ _ c => c
  | .exit_stop_limit _ c => c

/-- Configuration of `Algorithm.__init__` (besides `initial_capital`):
fee, slippage (fractional costs), `position_size` and `max_loss_pct`. -/
structure Params where
  fee : ℚ
  slippage : ℚ
  position_size : ℚ
  max_loss_pct : ℚ
  deriving DecidableEq, Repr

/-- The mutable state owned by an `Algorithm` instance: the capital fields of
`CapitalManagement`, the `current_trade` option, and the two derived columns
appended to the data (`"Capital Log"` and `"Trade Log"`), kept as lists
parallel to the bar list. -/
structure AlgState where
  total_capital : ℚ
  liquid_capital : ℚ
  current_trade : Option EntryTrade
  capital_log : List (Option ℚ)
  trade_log : List (List Trade)
  deriving DecidableEq, Repr

/-- `DataUtils.log_trade`: append the trade dictionary to the `"Trade Log"`
cell of every row whose `"Open time"` equals `trade["time"]`. -/
def log_trade (data : List Row) (t : Trade) (tl : List (List Trade)) :
    List (List Trade) :=
  (data.zip tl).map fun p => if p.1.open_time = t.time then p.2 ++ [t] else p.2

/-- `CapitalManagement.log_capital`: write the current `total_capital` into
the current row's `"Capital Log"` cell (the row is identified here by its
position `i` in the bar list). -/
def log_capital (s : AlgState) (i : ℕ) : AlgState :=
  { s with capital_log := s.capital_log.set i (some s.total_capital) }

/-- `RiskManagement.compute_current_loss`: unrealized dollar loss of the open
trade at the current row's opening price. -/
def compute_current_loss (current_trade : EntryTrade) (current_row : Row) : ℚ :=
  let potential_exit_capital :=
    current_trade.entry_capital * (current_row.open_price / current_trade.entry_price)
  current_trade.entry_capital - potential_exit_capital

/-- `TradeExecution.execute_entry`: withdraw `liquid_capital * position_size`,
apply fee and slippage once, recompute `total_capital`, log an entry Trade
keyed by the current row's open time, and return the trade record. -/
def execute_entry (p : Params) (data : List Row) (s : AlgState)
    (current_row : Row) : AlgState × EntryTrade :=
  let entry_amount := s.liquid_capital * p.position_size
  let liquid := s.liquid_capital - entry_amount
  let initial_trade_capital := entry_amount * (1 - p.fee - p.slippage)
  let trade : EntryTrade :=
    ⟨current_row.open_time, initial_trade_capital, current_row.open_price⟩
  ({ s with
      liquid_capital := liquid
      total_capital := liquid + initial_trade_capital
      trade_log := log_trade data
        (Trade.entry current_row.open_time initial_trade_capital current_row.open_price)
        s.trade_log },
   trade)

/-- `TradeExecution.execute_exit`: realize the exit capital (stop-limit policy
price or market open price), log the exit Trade, add the realized capital back
to `liquid_capital` and set `total_capital = liquid_capital`. -/
def execute_exit (p : Params) (data : List Row) (s : AlgState)
    (current_trade : EntryTrade) (current_row : Row) (stop_limit : Bool) :
    AlgState :=
  let fee_slip_multiplier := 1 - (p.fee + p.slippage)
  let trade : Trade :=
    if stop_limit then
      Trade.exit_stop_limit current_row.open_time
        ((1 - p.max_loss_pct) * current_trade.entry_capital * fee_slip_multiplier)
    else
      Trade.exit current_row.open_time current_row.open_price
        ((current_row.open_price / current_trade.entry_price) *
          current_trade.entry_capital * fee_slip_multiplier)
  let tl := log_trade data trade s.trade_log
  let liquid := s.liquid_capital + trade.exit_capital
  { s with trade_log := tl, liquid_capital := liquid, total_capital := liquid }

/-- Modelled from the spec: `SignalDetector` is an unimplemented stub in the
source (`detect_entry` / `detect_exit` bodies read "INSERT ... LOGIC HERE");
per the spec it is an injected pure predicate pair over the
(previous, current) bar pair.  `detect_entry` returning the string `"Entry"`
in the source is modelled as `detect_entry previous current = true`. -/
structure SignalDetector where
  detect_entry : Row → Row → Bool
  detect_exit : Row → Row → Bool

/-- `Algorithm.__init__` together with `CapitalManagement.__init__`: capital
fields start at `initial_capital`, no trade is open, the `"Capital Log"`
column starts as all-missing with the first cell pre-seeded to
`initial_capital`, and the `"Trade Log"` column as empty lists. -/
def init_state (data : List Row) (initial_capital : ℚ) : AlgState :=
  { total_capital := initial_capital
    liquid_capital := initial_capital
    current_trade := none
    capital_log :=
      (List.replicate data.length (none : Option ℚ)).set 0 (some initial_capital)
    trade_log := List.replicate data.length [] }

/-- `Algorithm.on_new_row`: log capital first, then either look for an entry
(flat) or manage the open trade (stop-limit check first, then signal exit,
else mark-to-market).  `i` is the position of `current_row` in the bar list. -/
def on_new_row (p : Params) (det : SignalDetector) (data : List Row) (i : ℕ)
    (previous_row current_row : Row) (s0 : AlgState) : AlgState :=
  let s := log_capital s0 i
  match s.current_trade with
  | none =>
      if det.detect_entry previous_row current_row then
        let r := execute_entry p data s current_row
        { r.1 with current_trade := some r.2 }
      else s
  | some ct =>
      let current_loss := compute_current_loss ct current_row
      if p.max_loss_pct * ct.entry_capital ≤ current_loss then
        { execute_exit p data s ct current_row true with current_trade := none }
      else if det.detect_exit previous_row current_row then
        { execute_exit p data s ct current_row false with current_trade := none }
      else
        let price_change_multiplier := current_row.open_price / ct.entry_price
        { s with total_capital :=
            s.liquid_capital + ct.entry_capital * price_change_multiplier }

/-- Mark-to-market value of the open trade at the most recently seen open
price: `entry_capital * (open / entry_price)`. -/
def mark_to_market (ct : EntryTrade) (last_open : ℚ) : ℚ :=
  ct.entry_capital * (last_open / ct.entry_price)

/-- The capital identity of the spec, relative to the open price of the most
recently processed bar: flat states satisfy `total = liquid`; in-trade states
satisfy `total = liquid + mark_to_market`.  Over `ℚ` the identity is exact,
hence in particular within the spec's floating tolerance of `1e-6`. -/
def capital_invariant (s : AlgState) (last_open : ℚ) : Prop :=
  match s.current_trade with
  | none => s.total_capital = s.liquid_capital
  | some ct => s.total_capital = s.liquid_capital + mark_to_market ct last_open

/-- Number of open trades held by the engine (the `current_trade` field is a
single optional record). -/
def open_trade_count (s : AlgState) : ℕ :=
  match s.current_trade with
  | none => 0
  | some _ => 1

/-! ### `RunBacktest.run_backtest` (MACrossover/backtest.py)

The scan loop with Python exception propagation is embedded in the `Except
String` monad: the per-row body (`algorithm.on_new_row` plus whatever it
raises) is an injected step function, and the `try/except` around it
re-raises `ValueError(f"Error processing new row: {e}")`.  The final pickle
dump is I/O and is outside the embedding. -/

/-- The loop body of `run_backtest` after the first row has seeded
`previous_row`: each remaining row is processed by `step`; a raised exception
`e` is replaced by `"Error processing new row: " ++ e` and aborts the scan. -/
def run_rows_exc (step : Row → Row → AlgState → Except String AlgState) :
    Row → List Row → AlgState → Except String AlgState
  | _, [], s => .ok s
  | previous_row, current_row :: rest, s =>
      match step previous_row current_row s with
      | .ok s1 => run_rows_exc step current_row rest s1
      | .error e => .error ("Error processing new row: " ++ e)

/-- `RunBacktest.run_backtest`: the first row only seeds `previous_row` and
produces no transition; every later row is processed by the wrapped step. -/
def run_backtest_exc (step : Row → Row → AlgState → Except String AlgState)
    (data : List Row) (s : AlgState) : Except String AlgState :=
  match data with
  | [] => .ok s
  | r0 :: rest => run_rows_exc step r0 rest s

/-! ### `BacktestDataUtils` analytics (MACrossover/backtest.py)

Return columns contain missing values (the first cell of each return series
is `NaN`), embedded as `Option ℚ`.  `DataFrame.cov` excludes missing pairs
pairwise and uses the sample normalisation (ddof = 1). -/

/-- The rows where both columns are non-missing, as used pairwise by
`DataFrame.cov`. -/
def pairwise_complete (xs ys : List (Option ℚ)) : List (ℚ × ℚ) :=
  (xs.zip ys).filterMap fun p =>
    match p.1, p.2 with
    | some a, some b => some (a, b)
    | _, _ => none

/-- Arithmetic mean of a list of rationals (0 on the empty list, a case that
never reaches a defined beta below). -/
def mean (l : List ℚ) : ℚ := l.sum / l.length

/-- One entry of the `DataFrame.cov` matrix: sample covariance (ddof = 1)
over the pairwise-complete rows of the two columns. -/
def sample_cov (xs ys : List (Option ℚ)) : ℚ :=
  let ps := pairwise_complete xs ys
  let mx := mean (ps.map Prod.fst)
  let my := mean (ps.map Prod.snd)
  (ps.map fun q => (q.1 - mx) * (q.2 - my)).sum / ((ps.length : ℚ) - 1)

/-- Result of the beta quotient: either a defined rational or the undefined
value that a float division by zero variance produces. -/
inductive BetaValue where
  | defined (q : ℚ)
  | undefined
  deriving DecidableEq, Repr

/-- Models the numpy float division `covariance / variance`: dividing by a
zero variance yields `nan`/`inf` — an undefined value, never an exception and
never a coerced zero.  (When the variance is zero the covariance over the
same rows is also zero, so the source concretely produces `0.0/0.0 = nan`.) -/
def float_div (a b : ℚ) : BetaValue :=
  if b = 0 then .undefined else .defined (a / b)

/-- `BacktestDataUtils.calc_beta`: covariance of strategy and market returns
over the variance of market returns, both read off the `cov()` matrix of the
two return columns. -/
def calc_beta (capital_returns market_returns : List (Option ℚ)) : BetaValue :=
  float_div (sample_cov capital_returns market_returns)
    (sample_cov market_returns market_returns)

/-- Round half to even to an integer, the rounding used by Python's
`round`. -/
def round_half_even (q : ℚ) : ℤ :=
  let f := ⌊q⌋
  let r := q - f
  if r < 1 / 2 then f
  else if 1 / 2 < r then f + 1
  else if Even f then f else f + 1

/-- Models Python `round(x, 2)`: round half to even at two decimal places. -/
def round2 (q : ℚ) : ℚ := ((round_half_even (q * 100) : ℚ) / 100 : ℚ)

/-- The `groupby(label)["Capital Returns"].mean()` value for one regime
label: the mean of the non-missing strategy returns of the rows carrying that
label, or `none` when there are no such values (absent group / all-`NaN`
mean). -/
def regime_group_mean (rows : List (String × Option ℚ)) (label : String) :
    Option ℚ :=
  let vs := (rows.filter fun p => p.1 = label).filterMap Prod.snd
  if vs.isEmpty then none else some (vs.sum / vs.length)

/-- Shared body of the two regime-average methods: per-label mean strategy
return, multiplied by 100 and rounded to 2 decimals. -/
def regime_avg_returns (rows : List (String × Option ℚ)) (label : String) :
    Option ℚ :=
  (regime_group_mean rows label).map fun m => round2 (m * 100)

/-- `BacktestDataUtils.calc_market_regime_avg_returns`: the rows pair each
bar's `"Market Regime"` label with its `"Capital Returns"` value. -/
def calc_market_regime_avg_returns (rows : List (String × Option ℚ)) :
    String → Option ℚ :=
  fun label => regime_avg_returns rows label

/-- `BacktestDataUtils.calc_volatility_regime_avg_returns`: the rows pair
each bar's `"Volatility Regime"` label with its `"Capital Returns"` value. -/
def calc_volatility_regime_avg_returns (rows : List (String × Option ℚ)) :
    String → Option ℚ :=
  fun label => regime_avg_returns rows label

/-! ### `DataUtils.define_windows` (Framework/data_utils.py) -/

/-- The window label of the row at 0-based position `i` among `n` rows:
`"Backtest"` when the 1-based position fraction `(i+1)/n` is at most 0.7,
`"Walk Forward"` otherwise. -/
def window_label (i n : ℕ) : Bool :=
  decide ((((i : ℚ) + 1) / (n : ℚ)) ≤ 7 / 10)

/-- `DataUtils.define_windows`: split the bar list into the backtest rows and
the walk-forward rows according to `window_label` at each position. -/
def define_windows (data : List Row) : List Row × List Row :=
  let n := data.length
  ((data.enum.filter fun p => window_label p.1 n).map Prod.snd,
   (data.enum.filter fun p => !window_label p.1 n).map Prod.snd)

/-! ### `BinanceDataPipeline` (BinanceDataPipeline/binance_data_pipeline.py)

The provider call is an injected function from the attempt number to either a
result or a raised error code; `time.sleep` and logging are I/O and drop out
of the embedding. -/

/-- `BinanceDataPipeline.transient_error`: an error is transient exactly when
its code matches one of the five codes of the source's `match`. -/
def transient_error (code : ℤ) : Bool :=
  if code = -1000 ∨ code = -1001 ∨ code = -1008 ∨ code = -1015 ∨ code = -1021
  then true else false

/-- Outcome of a failed `import_historical_data` call: a non-transient
provider error re-raised as-is, or the final
`Exception("Max retries reached ...")` after all attempts failed. -/
inductive FetchError where
  | nonTransient (code : ℤ)
  | maxRetries
  deriving DecidableEq, Repr

/-- The `for attempt in range(1, max_retries + 1)` retry loop of
`import_historical_data`: a successful fetch breaks out with the data; a
transient error moves to the next attempt; a non-transient error is re-raised
immediately; exhausting the attempts falls through to the `else` clause. -/
def import_attempts {α : Type} (fetch : ℕ → Except ℤ α) :
    ℕ → ℕ → Except FetchError α
  | _, 0 => .error .maxRetries
  | attempt, fuel + 1 =>
      match fetch attempt with
      | .ok v => .ok v
      | .error c =>
          if transient_error c then import_attempts fetch (attempt + 1) fuel
          else .error (.nonTransient c)

/-- `max_retries = 3` in `import_historical_data`. -/
def max_retries : ℕ := 3

/-- `BinanceDataPipeline.import_historical_data`, restricted to its retry
loop (the subsequent DataFrame construction is out of scope of the embedded
claims). -/
def import_historical_data {α : Type} (fetch : ℕ → Except ℤ α) :
    Except FetchError α :=
  import_attempts fetch 1 max_retries

/-! ### Concrete fixtures (the `initial_capital = 10000`, `fee = 0.002`,
`slippage = 0.001`, `position_size = 0.1`, `max_loss_pct = 0.05` scenario of
the spec) used by witnesses and counterexamples. -/

/-- Spec-scenario parameters. -/
def pW : Params := ⟨2 / 1000, 1 / 1000, 1 / 10, 5 / 100⟩

/-- First bar of the scenario. -/
def rowW0 : Row := ⟨0, 100⟩

/-- Second bar of the scenario (entry fires here at open 100). -/
def rowW : Row := ⟨1, 100⟩

/-- Third bar of the scenario (open 90: unrealized loss 99.7 exceeds the
stop-limit threshold 49.85). -/
def rowW2 : Row := ⟨2, 90⟩

/-- The scenario's bar list. -/
def dataW : List Row := [rowW0, rowW, rowW2]

/-- A detector that always signals entry and never signals exit. -/
def detW : SignalDetector := ⟨fun _ _ => true, fun _ _ => false⟩

/-- The state at `Algorithm` construction for the scenario. -/
def sW : AlgState := init_state dataW 10000

/-- The open trade after the scenario's entry at bar `rowW`. -/
def ctW : EntryTrade := ⟨1, 997, 100⟩

/-- The scenario's state right after the entry at bar `rowW`. -/
def sInTrade : AlgState :=
  { total_capital := 9997
    liquid_capital := 9000
    current_trade := some ctW
    capital_log := [some 10000, some 10000, none]
    trade_log := [[], [Trade.entry 1 997 100], []] }

/-- A step function that raises `"boom"` on any bar with open price 0. -/
def step_boom : Row → Row → AlgState → Except String AlgState :=
  fun _ cur s => if cur.open_price = 0 then .error "boom" else .ok s

/-- A bar list whose failing bar (open price 0) sits at index 1, time 5. -/
def data_a : List Row := [⟨0, 1⟩, ⟨5, 0⟩]

/-- A bar list whose failing bar (open price 0) sits at index 2, time 11. -/
def data_b : List Row := [⟨0, 1⟩, ⟨7, 1⟩, ⟨11, 0⟩]

/-- A throwaway initial state for the runner fixtures. -/
def state_zero : AlgState := ⟨0, 0, none, [], []⟩

/-- Regime rows of the spec's regime-aggregation scenario: bull bars with
strategy returns 0.01 and 0.02, bear bars with -0.01 and -0.02. -/
def sample_regime_rows : List (String × Option ℚ) :=
  [("bull", some (1 / 100)), ("bull", some (2 / 100)),
   ("bear", some (-(1 / 100))), ("bear", some (-(2 / 100)))]

/-- A provider that fails with a transient code on each of the three
attempts. -/
def fetch_fail_all : ℕ → Except ℤ ℕ :=
  fun n => if n = 1 then .error (-1000)
    else if n = 2 then .error (-1001) else .error (-1021)

/-- A provider that fails with a non-transient code on the first attempt. -/
def fetch_fail_fatal : ℕ → Except ℤ ℕ :=
  fun n => if n = 1 then .error (-2010) else .ok 7

/-! ### Helper lemmas -/

/-- Indexing a zip where both lists are defined at `i`. -/
theorem zip_get?_eq_some {α β : Type} (l1 : List α) (l2 : List β) (i : ℕ)
    (a : α) (b : β) (h1 : l1.get? i = some a) (h2 : l2.get? i = some b) :
    (l1.zip l2).get? i = some (a, b) := by
  induction l1 generalizing l2 i with
  | nil => simp at h1
  | cons x xs ih =>
      cases l2 with
      | nil => simp at h2
      | cons y ys =>
          cases i with
          | zero => simp_all
          | succ j =>
              simpa using ih ys j (by simpa using h1) (by simpa using h2)

/-- Pointwise description of `log_trade`: the cell of a row keyed by the
trade's time gets the trade appended; every other cell is unchanged. -/
theorem log_trade_get? (data : List Row) (t : Trade) (tl : List (List Trade))
    (i : ℕ) (row : Row) (old : List Trade)
    (hrow : data.get? i = some row) (hold : tl.get? i = some old) :
    (log_trade data t tl).get? i =
      some (if row.open_time = t.time then old ++ [t] else old) := by
  unfold log_trade
  rw [List.get?_map, zip_get?_eq_some data tl i row old hrow hold]
  rfl

/-! ### Claim theorems -/

/-- C2: postcondition of `execute_entry`: from liquid capital `L` it sets
`liquid_capital = L - L * position_size`, creates the trade with
`entry_capital = (L * position_size) * (1 - fee - slippage)` and
`entry_price` equal to the bar's open, recomputes
`total_capital = liquid_capital + entry_capital`, appends an entry Trade
keyed by the bar's open time, and returns that trade record. -/
theorem execute_entry_postcondition (p : Params) (data : List Row)
    (s : AlgState) (cur : Row) :
    (execute_entry p data s cur).1.liquid_capital
        = s.liquid_capital - s.liquid_capital * p.position_size ∧
    (execute_entry p data s cur).2.entry_capital
        = s.liquid_capital * p.position_size * (1 - p.fee - p.slippage) ∧
    (execute_entry p data s cur).1.total_capital
        = (execute_entry p data s cur).1.liquid_capital
            + (execute_entry p data s cur).2.entry_capital ∧
    (execute_entry p data s cur).2.time = cur.open_time ∧
    (execute_entry p data s cur).2.entry_price = cur.open_price ∧
    ∀ (i : ℕ) (row : Row) (old : List Trade),
      data.get? i = some row → s.trade_log.get? i = some old →
      (execute_entry p data s cur).1.trade_log.get? i =
        some (if row.open_time = cur.open_time
              then old ++ [Trade.entry cur.open_time
                  (s.liquid_capital * p.position_size * (1 - p.fee - p.slippage))
                  cur.open_price]
              else old) := by
  refine ⟨rfl, rfl, rfl, rfl, rfl, ?_⟩
  intro i row old hrow hold
  exact log_trade_get? data _ s.trade_log i row old hrow hold

/-- Witness for C2: the spec scenario's entry at bar `rowW` from the initial
state, evaluated at the trade-log cell of `rowW` itself. -/
theorem execute_entry_postcondition_witness :
    (execute_entry pW dataW sW rowW).1.trade_log.get? 1 =
      some (if rowW.open_time = rowW.open_time
            then ([] : List Trade) ++ [Trade.entry rowW.open_time
                (sW.liquid_capital * pW.position_size * (1 - pW.fee - pW.slippage))
                rowW.open_price]
            else []) :=
  (execute_entry_postcondition pW dataW sW rowW).2.2.2.2.2 1 rowW []
    (by decide) (by decide)

/-- C3: postcondition of `execute_exit`: a stop-limit exit realizes
`entry_capital * (1 - max_loss_pct) * (1 - fee - slippage)` independently of
the current bar's open price, a signal exit realizes
`entry_capital * (open / entry_price) * (1 - fee - slippage)`; in both cases
the corresponding exit / exit_stop_limit Trade is appended to the current
bar, the realized capital is added to `liquid_capital`, and `total_capital`
is set equal to `liquid_capital`. -/
theorem execute_exit_postcondition (p : Params) (data : List Row)
    (s : AlgState) (ct : EntryTrade) (cur : Row) :
    (execute_exit p data s ct cur true).liquid_capital
        = s.liquid_capital
            + ct.entry_capital * (1 - p.max_loss_pct) * (1 - p.fee - p.slippage) ∧
    (execute_exit p data s ct cur true).total_capital
        = (execute_exit p data s ct cur true).liquid_capital ∧
    (∀ cur2 : Row, cur2.open_time = cur.open_time →
        execute_exit p data s ct cur2 true = execute_exit p data s ct cur true) ∧
    (execute_exit p data s ct cur false).liquid_capital
        = s.liquid_capital
            + ct.entry_capital * (cur.open_price / ct.entry_price)
                * (1 - p.fee - p.slippage) ∧
    (execute_exit p data s ct cur false).total_capital
        = (execute_exit p data s ct cur false).liquid_capital ∧
    ∀ (i : ℕ) (row : Row) (old : List Trade),
      data.get? i = some row → s.trade_log.get? i = some old →
      (execute_exit p data s ct cur true).trade_log.get? i =
        some (if row.open_time = cur.open_time
              then old ++ [Trade.exit_stop_limit cur.open_time
                  ((1 - p.max_loss_pct) * ct.entry_capital
                      * (1 - (p.fee + p.slippage)))]
              else old) ∧
      (execute_exit p data s ct cur false).trade_log.get? i =
        some (if row.open_time = cur.open_time
              then old ++ [Trade.exit cur.open_time cur.open_price
                  ((cur.open_price / ct.entry_price) * ct.entry_capital
                      * (1 - (p.fee + p.slippage)))]
              else old) := by
  refine ⟨?_, rfl, ?_, ?_, rfl, ?_⟩
  · show s.liquid_capital
        + Trade.exit_capital (Trade.exit_stop_limit cur.open_time
            ((1 - p.max_loss_pct) * ct.entry_capital * (1 - (p.fee + p.slippage))))
      = _
    unfold Trade.exit_capital
    ring
  · intro cur2 h
    simp [execute_exit, h]
  · show s.liquid_capital
        + Trade.exit_capital (Trade.exit cur.open_time cur.open_price
            ((cur.open_price / ct.entry_price) * ct.entry_capital
                * (1 - (p.fee + p.slippage))))
      = _
    unfold Trade.exit_capital
    ring
  · intro i row old hrow hold
    exact ⟨log_trade_get? data _ s.trade_log i row old hrow hold,
           log_trade_get? data _ s.trade_log i row old hrow hold⟩

/-- Witness for C3: the spec scenario's stop-limit exit at bar `rowW2` from
the in-trade state, evaluated at the time-independence part and at the
trade-log cell of `rowW2`. -/
theorem execute_exit_postcondition_witness :
    (execute_exit pW dataW sInTrade ctW ⟨2, 80⟩ true
        = execute_exit pW dataW sInTrade ctW rowW2 true) ∧
    ((execute_exit pW dataW sInTrade ctW rowW2 true).trade_log.get? 2 =
        some (if rowW2.open_time = rowW2.open_time
              then ([] : List Trade) ++ [Trade.exit_stop_limit rowW2.open_time
                  ((1 - pW.max_loss_pct) * ctW.entry_capital
                      * (1 - (pW.fee + pW.slippage)))]
              else [])) :=
  ⟨(execute_exit_postcondition pW dataW sInTrade ctW rowW2).2.2.1 ⟨2, 80⟩
      (by decide),
   ((execute_exit_postcondition pW dataW sInTrade ctW rowW2).2.2.2.2.2 2 rowW2
      [] (by decide) (by decide)).1⟩

/-- C4: stop-limit trigger and priority: while a trade is open, the
unrealized loss is `entry_capital * (1 - open / entry_price)`, and whenever
it reaches `max_loss_pct * entry_capital` the transition is exactly a
stop-limit exit with the open trade cleared — for every detector, so in
particular even when the signal exit detector also fires on the same bar
pair, and with exactly the one stop-limit trade event. -/
theorem stop_limit_trigger_and_priority (p : Params) (det : SignalDetector)
    (data : List Row) (i : ℕ) (prev cur : Row) (s : AlgState) (ct : EntryTrade)
    (htr : s.current_trade = some ct)
    (hloss : p.max_loss_pct * ct.entry_capital ≤ compute_current_loss ct cur) :
    compute_current_loss ct cur
        = ct.entry_capital * (1 - cur.open_price / ct.entry_price) ∧
    on_new_row p det data i prev cur s
        = { execute_exit p data (log_capital s i) ct cur true with
            current_trade := none } ∧
    (on_new_row p det data i prev cur s).current_trade = none := by
  have hform : compute_current_loss ct cur
      = ct.entry_capital * (1 - cur.open_price / ct.entry_price) := by
    unfold compute_current_loss
    ring
  have hmain : on_new_row p det data i prev cur s
      = { execute_exit p data (log_capital s i) ct cur true with
          current_trade := none } := by
    unfold on_new_row
    have hcur : (log_capital s i).current_trade = some ct := htr
    simp only [hcur, if_pos hloss]
  exact ⟨hform, hmain, by rw [hmain]⟩

/-- Witness for C4: the spec scenario's bar at open 90 against the open trade
entered at 100 (loss 99.7 against threshold 49.85), with a detector whose
signal exit also fires on every bar pair. -/
theorem stop_limit_trigger_and_priority_witness :
    compute_current_loss ctW rowW2
        = ctW.entry_capital * (1 - rowW2.open_price / ctW.entry_price) ∧
    on_new_row pW ⟨fun _ _ => true, fun _ _ => true⟩ dataW 2 rowW rowW2 sInTrade
        = { execute_exit pW dataW (log_capital sInTrade 2) ctW rowW2 true with
            current_trade := none } ∧
    (on_new_row pW ⟨fun _ _ => true, fun _ _ => true⟩ dataW 2 rowW rowW2
        sInTrade).current_trade = none :=
  stop_limit_trigger_and_priority pW ⟨fun _ _ => true, fun _ _ => true⟩ dataW 2
    rowW rowW2 sInTrade ctW rfl
    (by norm_num [compute_current_loss, pW, ctW, rowW2])

/-- C5: capital-log timing: the value `on_new_row` writes into the current
bar's capital-log slot is the `total_capital` entering the bar (logged before
any entry, exit, or mark-to-market update), and at construction the first
bar's capital-log cell is pre-seeded to `initial_capital`. -/
theorem capital_log_timing (p : Params) (det : SignalDetector) (data : List Row)
    (i : ℕ) (prev cur : Row) (s : AlgState) (ic : ℚ)
    (hi : i < s.capital_log.length) (hdata : data ≠ []) :
    (on_new_row p det data i prev cur s).capital_log.get? i
        = some (some s.total_capital) ∧
    (init_state data ic).capital_log.get? 0 = some (some ic) := by
  constructor
  · have hlog : (on_new_row p det data i prev cur s).capital_log
        = s.capital_log.set i (some s.total_capital) := by
      unfold on_new_row log_capital
      cases htr : s.current_trade <;> simp only [htr]
      · split <;> simp [execute_entry]
      · split
        · simp [execute_exit]
        · split <;> simp [execute_exit]
    rw [hlog]
    simp [List.getElem?_set_self, hi]
  · have hlen : 0 < data.length := List.length_pos.mpr hdata
    unfold init_state
    simp only
    simp [List.getElem?_set_self, List.length_replicate, hlen]

/-- Witness for C5: the scenario's in-trade state processing the third bar
logs the mark-to-market total 9997 that entered the bar, and the initial
state pre-seeds 10000. -/
theorem capital_log_timing_witness :
    (on_new_row pW detW dataW 2 rowW rowW2 sInTrade).capital_log.get? 2
        = some (some sInTrade.total_capital) ∧
    (init_state dataW 10000).capital_log.get? 0 = some (some 10000) :=
  capital_log_timing pW detW dataW 2 rowW rowW2 sInTrade 10000 (by decide)
    (by decide)

/-- C1: state invariant of the `Algorithm`: the construction state and every
`on_new_row` successor hold at most one open trade (the `current_trade`
option), and satisfy the capital identity — `total_capital = liquid_capital`
while flat, `total_capital = liquid_capital + entry_capital * (last open /
entry_price)` while in a trade (exact over `ℚ`, hence within the `1e-6`
tolerance).  The identity is preserved from any state satisfying it, for any
detector, provided the bar's open price is nonzero (a zero open price makes
the Python engine raise on the next loss computation instead). -/
theorem single_position_and_capital_identity (p : Params)
    (det : SignalDetector) (data : List Row) (i : ℕ) (prev cur : Row)
    (s : AlgState) (last_open ic v : ℚ)
    (hinv : capital_invariant s last_open) (hopen : cur.open_price ≠ 0) :
    capital_invariant (on_new_row p det data i prev cur s) cur.open_price ∧
    open_trade_count (on_new_row p det data i prev cur s) ≤ 1 ∧
    capital_invariant (init_state data ic) v ∧
    open_trade_count (init_state data ic) ≤ 1 := by
  refine ⟨?_, ?_, ?_, ?_⟩
  · unfold on_new_row log_capital
    cases htr : s.current_trade with
    | none =>
        simp only [htr]
        split
        · unfold capital_invariant execute_entry mark_to_market
          simp only
          rw [div_self hopen, mul_one]
        · unfold capital_invariant at hinv ⊢
          simp only [htr] at hinv ⊢
          exact hinv
    | some ct =>
        simp only [htr]
        split
        · unfold capital_invariant
          simp [execute_exit]
        · split
          · unfold capital_invariant
            simp [execute_exit]
          · unfold capital_invariant mark_to_market
            simp only
  · unfold open_trade_count
    split <;> omega
  · unfold capital_invariant init_state
    simp only
  · unfold open_trade_count init_state
    simp only
    omega

/-- Witness for C1: one spec-scenario transition from the in-trade state at
9997/9000 through the stop-limit bar at open 90, plus the construction state
for `initial_capital = 10000`. -/
theorem single_position_and_capital_identity_witness :
    capital_invariant (on_new_row pW detW dataW 2 rowW rowW2 sInTrade)
        rowW2.open_price ∧
    open_trade_count (on_new_row pW detW dataW 2 rowW rowW2 sInTrade) ≤ 1 ∧
    capital_invariant (init_state dataW 10000) 100 ∧
    open_trade_count (init_state dataW 10000) ≤ 1 :=
  single_position_and_capital_identity pW detW dataW 2 rowW rowW2 sInTrade
    100 10000 100
    (by unfold capital_invariant sInTrade mark_to_market ctW; norm_num)
    (by norm_num [rowW2])

/-- The pairwise-complete rows of a column against itself are its non-missing
values, duplicated. -/
theorem pairwise_complete_self (ys : List (Option ℚ)) :
    pairwise_complete ys ys = ys.reduceOption.map fun q => (q, q) := by
  induction ys with
  | nil => rfl
  | cons o t ih =>
      cases o with
      | none => simpa [pairwise_complete, List.reduceOption] using ih
      | some a =>
          simpa [pairwise_complete, List.reduceOption] using ih

/-- The sample variance of a constant column is exactly zero. -/
theorem sample_cov_self_const (ys : List (Option ℚ)) (c : ℚ)
    (hconst : ∀ q ∈ ys.reduceOption, q = c) : sample_cov ys ys = 0 := by
  unfold sample_cov
  rw [pairwise_complete_self]
  rcases eq_or_ne ys.reduceOption [] with hnil | hne
  · simp [hnil, mean]
  · have hpos : 0 < ys.reduceOption.length := List.length_pos.mpr hne
    have hlen : (ys.reduceOption.length : ℚ) ≠ 0 := by
      exact_mod_cast Nat.pos_iff_ne_zero.mp hpos
    have hmap : (ys.reduceOption.map fun q => (q, q)).map Prod.snd
        = ys.reduceOption := by
      rw [List.map_map]
      exact List.map_id ys.reduceOption
    have hmean : mean ((ys.reduceOption.map fun q => (q, q)).map Prod.snd)
        = c := by
      unfold mean
      rw [hmap]
      have hsum : ys.reduceOption.sum = (ys.reduceOption.length : ℚ) * c := by
        rw [List.sum_eq_card_nsmul ys.reduceOption c hconst]
        simp [nsmul_eq_mul]
      rw [hsum]
      field_simp
    have hzero : ((ys.reduceOption.map fun q => (q, q)).map fun q =>
        (q.1 - mean ((ys.reduceOption.map fun q => (q, q)).map Prod.fst))
          * (q.2 - mean ((ys.reduceOption.map fun q => (q, q)).map Prod.snd))).sum
        = 0 := by
      apply List.sum_eq_zero
      intro x hx
      rw [List.map_map] at hx
      rcases List.mem_map.mp hx with ⟨q, hq, hxq⟩
      rw [← hxq]
      simp only [Function.comp]
      rw [hmean, hconst q hq]
      ring
    simp only [hzero, zero_div]

/-- C6: beta edge case: whenever the market-returns column is constant across
its non-missing entries (zero variance), the variance entry of the covariance
matrix is exactly zero and `calc_beta` reports the undefined value — it is
neither a defined rational (in particular not zero) nor an exception
(`calc_beta` is a total function). -/
theorem beta_zero_variance_undefined (xs ys : List (Option ℚ)) (c : ℚ)
    (hconst : ∀ q ∈ ys.reduceOption, q = c) :
    sample_cov ys ys = 0 ∧
    calc_beta xs ys = BetaValue.undefined ∧
    ∀ q : ℚ, calc_beta xs ys ≠ BetaValue.defined q := by
  have hvar := sample_cov_self_const ys c hconst
  have hbeta : calc_beta xs ys = BetaValue.undefined := by
    unfold calc_beta float_div
    rw [hvar]
    simp
  exact ⟨hvar, hbeta, fun q h => by rw [hbeta] at h; exact BetaValue.noConfusion h⟩

/-- Witness for C6: a three-bar window whose market returns are the constant
1/2 (first cell missing, as the first return always is) and a non-constant
strategy-returns column. -/
theorem beta_zero_variance_undefined_witness :
    sample_cov [none, some (1 / 2), some (1 / 2)]
        [none, some (1 / 2), some (1 / 2)] = 0 ∧
    calc_beta [none, some 1, some 3] [none, some (1 / 2), some (1 / 2)]
        = BetaValue.undefined ∧
    ∀ q : ℚ, calc_beta [none, some 1, some 3]
        [none, some (1 / 2), some (1 / 2)] ≠ BetaValue.defined q :=
  beta_zero_variance_undefined [none, some 1, some 3]
    [none, some (1 / 2), some (1 / 2)] (1 / 2)
    (by
      intro q hq
      simp [List.reduceOption_cons_of_some, List.reduceOption_cons_of_none]
        at hq
      rw [hq]
      norm_num)

/-- Every error coming out of the scan loop is the wrap of a cause raised by
the step at some bar of the remaining list. -/
theorem run_rows_exc_error_shape
    (step : Row → Row → AlgState → Except String AlgState) :
    ∀ (rest : List Row) (prev : Row) (s : AlgState) (m : String),
      run_rows_exc step prev rest s = .error m →
      ∃ (e : String) (p2 cur : Row) (s1 : AlgState), cur ∈ rest ∧
        step p2 cur s1 = .error e ∧ m = "Error processing new row: " ++ e := by
  intro rest
  induction rest with
  | nil => intro prev s m h; simp [run_rows_exc] at h
  | cons cur rest ih =>
      intro prev s m h
      unfold run_rows_exc at h
      cases hstep : step prev cur s with
      | ok s1 =>
          rw [hstep] at h
          rcases ih cur s1 m h with ⟨e, p2, cur2, s2, hmem, hs, hm⟩
          exact ⟨e, p2, cur2, s2, List.mem_cons_of_mem cur hmem, hs, hm⟩
      | error e =>
          rw [hstep] at h
          refine ⟨e, prev, cur, s, List.mem_cons_self cur rest, hstep, ?_⟩
          simpa using h.symm

/-- Counterexample to C7: two runs whose failing bars differ in both index
and open time (index 1 / time 5 versus index 2 / time 11, with the same
raised cause) produce the identical error report, so the reported error
cannot identify the originating bar's index or time. -/
theorem runner_error_lacks_bar_identity :
    run_backtest_exc step_boom data_a state_zero
        = Except.error "Error processing new row: boom" ∧
    run_backtest_exc step_boom data_b state_zero
        = Except.error "Error processing new row: boom" ∧
    data_a.get? 1 = some ⟨5, 0⟩ ∧ data_b.get? 2 = some ⟨11, 0⟩ := by
  refine ⟨?_, ?_, rfl, rfl⟩ <;> rfl

/-- C7 (amended): if processing any bar during the scan raises, the entire
run aborts — the result is a single error with no partial or resumable state
— and the reported error wraps the originating cause raised at some bar of
the series; it does not identify the originating bar's index or time. -/
theorem runner_abort_wraps_cause
    (step : Row → Row → AlgState → Except String AlgState)
    (data : List Row) (s : AlgState) (m : String)
    (h : run_backtest_exc step data s = .error m) :
    ∃ (e : String) (p2 cur : Row) (s1 : AlgState), cur ∈ data ∧
      step p2 cur s1 = .error e ∧ m = "Error processing new row: " ++ e := by
  cases data with
  | nil => simp [run_backtest_exc] at h
  | cons r0 rest =>
      rcases run_rows_exc_error_shape step rest r0 s m h with
        ⟨e, p2, cur, s1, hmem, hs, hm⟩
      exact ⟨e, p2, cur, s1, List.mem_cons_of_mem r0 hmem, hs, hm⟩

/-- Witness for C7 (amended): the failing run over `data_a` yields an error
wrapping the cause `"boom"` raised at one of its bars. -/
theorem runner_abort_wraps_cause_witness :
    ∃ (e : String) (p2 cur : Row) (s1 : AlgState), cur ∈ data_a ∧
      step_boom p2 cur s1 = .error e ∧
      "Error processing new row: boom" = "Error processing new row: " ++ e :=
  runner_abort_wraps_cause step_boom data_a state_zero
    "Error processing new row: boom" rfl

/-- Counting the positions below a threshold in an initial segment of ℕ. -/
theorem countP_range_lt (n k : ℕ) :
    (List.range n).countP (fun i => decide (i < k)) = min k n := by
  induction n with
  | zero => simp
  | succ m ih =>
      rw [List.range_succ, List.countP_append, ih]
      by_cases h : m < k <;> simp [h] <;> omega

/-- For a nonempty series, the window label of position `i` holds exactly
when `i` lies below `⌊0.7 n⌋`. -/
theorem window_label_iff (i n : ℕ) (hn : 0 < n) :
    window_label i n = decide (i < 7 * n / 10) := by
  unfold window_label
  rw [decide_eq_decide]
  have hnq : (0 : ℚ) < (n : ℚ) := by exact_mod_cast hn
  rw [div_le_div_iff₀ hnq (by norm_num : (0 : ℚ) < 10)]
  constructor
  · intro h
    have hcast : (i + 1) * 10 ≤ 7 * n := by exact_mod_cast h
    have := (Nat.le_div_iff_mul_le (by norm_num : 0 < 10)).mpr hcast
    omega
  · intro h
    have h1 : i + 1 ≤ 7 * n / 10 := h
    have := (Nat.le_div_iff_mul_le (by norm_num : 0 < 10)).mp h1
    exact_mod_cast this

/-- C8: window split: for a series of `n` rows, `define_windows` partitions
it so that the two parts' lengths sum to `n`, the backtest part has exactly
`⌊0.7 n⌋` rows, and a position is assigned to the backtest part exactly when
its 1-based position fraction is at most 0.7. -/
theorem window_split (data : List Row) :
    (define_windows data).1.length + (define_windows data).2.length
        = data.length ∧
    (define_windows data).1.length = 7 * data.length / 10 ∧
    ∀ i : ℕ, window_label i data.length
        = decide ((((i : ℚ) + 1) / (data.length : ℚ)) ≤ 7 / 10) := by
  refine ⟨?_, ?_, fun i => rfl⟩
  · unfold define_windows
    simp only [List.length_map]
    rw [← List.countP_eq_length_filter, ← List.countP_eq_length_filter]
    have h := List.length_eq_countP_add_countP
      (fun p => window_label p.1 data.length) data.enum
    rw [List.enum_length] at h
    simpa using h.symm
  · unfold define_windows
    simp only [List.length_map]
    rw [← List.countP_eq_length_filter]
    have hcomp : data.enum.countP (fun p => window_label p.1 data.length)
        = (data.enum.map Prod.fst).countP fun i => window_label i data.length := by
      rw [List.countP_map]
      rfl
    rw [hcomp, List.enum_map_fst]
    rcases Nat.eq_zero_or_pos data.length with hz | hpos
    · simp [hz]
    · rw [List.countP_congr fun i _ => by
        rw [window_label_iff i data.length hpos]]
      rw [countP_range_lt]
      have hle : 7 * data.length / 10 ≤ data.length := by
        have h1 : 7 * data.length / 10 ≤ 10 * data.length / 10 :=
          Nat.div_le_div_right (by omega)
        rwa [Nat.mul_div_cancel_left data.length (by norm_num : 0 < 10)] at h1
      exact Nat.min_eq_left hle

/-- C9: regime aggregates: for each regime label, the reported per-regime
average return is the mean of the strategy returns of the bars carrying that
label, multiplied by 100 and rounded to 2 decimals — for the market-regime
aggregation and the volatility-regime aggregation alike; in particular the
spec's scenario (bull returns 0.01 and 0.02, bear returns -0.01 and -0.02)
yields bull 1.5 and bear -1.5. -/
theorem regime_avg_returns_spec :
    (∀ (rows : List (String × Option ℚ)) (label : String) (m : ℚ),
        regime_group_mean rows label = some m →
        calc_market_regime_avg_returns rows label = some (round2 (m * 100))) ∧
    (∀ (rows : List (String × Option ℚ)) (label : String) (m : ℚ),
        regime_group_mean rows label = some m →
        calc_volatility_regime_avg_returns rows label
          = some (round2 (m * 100))) ∧
    calc_market_regime_avg_returns sample_regime_rows "bull"
        = some (3 / 2) ∧
    calc_market_regime_avg_returns sample_regime_rows "bear"
        = some (-(3 / 2)) := by
  have hgen : ∀ (rows : List (String × Option ℚ)) (label : String) (m : ℚ),
      regime_group_mean rows label = some m →
      regime_avg_returns rows label = some (round2 (m * 100)) := by
    intro rows label m h
    unfold regime_avg_returns
    rw [h]
    rfl
  refine ⟨fun rows label m h => hgen rows label m h,
          fun rows label m h => hgen rows label m h, ?_, ?_⟩
  · have hgm : regime_group_mean sample_regime_rows "bull" = some (3 / 200) := by
      have hvs : ((sample_regime_rows.filter fun p => p.1 = "bull").filterMap
          Prod.snd) = [1 / 100, 2 / 100] := rfl
      show (if ((sample_regime_rows.filter fun p => p.1 = "bull").filterMap
              Prod.snd).isEmpty
            then (none : Option ℚ)
            else some (((sample_regime_rows.filter fun p => p.1 = "bull").filterMap
                Prod.snd).sum
              / ((sample_regime_rows.filter fun p => p.1 = "bull").filterMap
                  Prod.snd).length))
          = some (3 / 200)
      rw [hvs]
      norm_num [List.sum_cons, List.sum_nil]
    have h1 : calc_market_regime_avg_returns sample_regime_rows "bull"
        = some (round2 ((3 / 200 : ℚ) * 100)) :=
      hgen sample_regime_rows "bull" (3 / 200) hgm
    rw [h1]
    have h2 : round2 ((3 / 200 : ℚ) * 100) = 3 / 2 := by
      unfold round2 round_half_even
      norm_num
    rw [h2]
  · have hgm : regime_group_mean sample_regime_rows "bear"
        = some (-(3 / 200)) := by
      have hvs : ((sample_regime_rows.filter fun p => p.1 = "bear").filterMap
          Prod.snd) = [-(1 / 100), -(2 / 100)] := rfl
      show (if ((sample_regime_rows.filter fun p => p.1 = "bear").filterMap
              Prod.snd).isEmpty
            then (none : Option ℚ)
            else some (((sample_regime_rows.filter fun p => p.1 = "bear").filterMap
                Prod.snd).sum
              / ((sample_regime_rows.filter fun p => p.1 = "bear").filterMap
                  Prod.snd).length))
          = some (-(3 / 200))
      rw [hvs]
      norm_num [List.sum_cons, List.sum_nil]
    have h1 : calc_market_regime_avg_returns sample_regime_rows "bear"
        = some (round2 ((-(3 / 200) : ℚ) * 100)) :=
      hgen sample_regime_rows "bear" (-(3 / 200)) hgm
    rw [h1]
    have h2 : round2 ((-(3 / 200) : ℚ) * 100) = -(3 / 2) := by
      unfold round2 round_half_even
      norm_num
    rw [h2]

/-- Witness for C9: the theorem's general part applied to the bull group of
the scenario rows. -/
theorem regime_avg_returns_spec_witness :
    calc_market_regime_avg_returns sample_regime_rows "bull"
        = some (round2 ((3 / 200 : ℚ) * 100)) :=
  regime_avg_returns_spec.1 sample_regime_rows "bull" (3 / 200)
    (by
      have hvs : ((sample_regime_rows.filter fun p => p.1 = "bull").filterMap
          Prod.snd) = [1 / 100, 2 / 100] := rfl
      show (if ((sample_regime_rows.filter fun p => p.1 = "bull").filterMap
              Prod.snd).isEmpty
            then (none : Option ℚ)
            else some (((sample_regime_rows.filter fun p => p.1 = "bull").filterMap
                Prod.snd).sum
              / ((sample_regime_rows.filter fun p => p.1 = "bull").filterMap
                  Prod.snd).length))
          = some (3 / 200)
      rw [hvs]
      norm_num [List.sum_cons, List.sum_nil])

/-- C10: closed transient-error classification: `transient_error` returns
true exactly on the five codes -1000, -1001, -1008, -1015, -1021; a non-transient
first failure is re-raised immediately (whatever later attempts would have
returned), while three transient failures exhaust the retries and raise the
final max-retries exception. -/
theorem transient_error_classification :
    (∀ c : ℤ, transient_error c = true ↔
        (c = -1000 ∨ c = -1001 ∨ c = -1008 ∨ c = -1015 ∨ c = -1021)) ∧
    (∀ (α : Type) (fetch : ℕ → Except ℤ α) (c : ℤ),
        fetch 1 = Except.error c → transient_error c = false →
        import_historical_data fetch
          = Except.error (FetchError.nonTransient c)) ∧
    (∀ (α : Type) (fetch : ℕ → Except ℤ α) (c1 c2 c3 : ℤ),
        fetch 1 = Except.error c1 → fetch 2 = Except.error c2 →
        fetch 3 = Except.error c3 →
        transient_error c1 = true → transient_error c2 = true →
        transient_error c3 = true →
        import_historical_data fetch = Except.error FetchError.maxRetries) := by
  refine ⟨?_, ?_, ?_⟩
  · intro c
    by_cases h : c = -1000 ∨ c = -1001 ∨ c = -1008 ∨ c = -1015 ∨ c = -1021 <;>
      simp [transient_error, h]
  · intro α fetch c h1 ht
    unfold import_historical_data max_retries import_attempts
    rw [h1]
    show (if transient_error c = true then import_attempts fetch (1 + 1) 2
          else Except.error (FetchError.nonTransient c))
        = Except.error (FetchError.nonTransient c)
    rw [ht]
    simp
  · intro α fetch c1 c2 c3 h1 h2 h3 ht1 ht2 ht3
    unfold import_historical_data max_retries
    unfold import_attempts
    rw [h1]
    show (if transient_error c1 = true then import_attempts fetch (1 + 1) 2
          else Except.error (FetchError.nonTransient c1))
        = Except.error FetchError.maxRetries
    rw [ht1]
    simp only [if_true]
    unfold import_attempts
    rw [show fetch (1 + 1) = Except.error c2 from h2]
    show (if transient_error c2 = true then import_attempts fetch (1 + 1 + 1) 1
          else Except.error (FetchError.nonTransient c2))
        = Except.error FetchError.maxRetries
    rw [ht2]
    simp only [if_true]
    unfold import_attempts
    rw [show fetch (1 + 1 + 1) = Except.error c3 from h3]
    show (if transient_error c3 = true
          then import_attempts fetch (1 + 1 + 1 + 1) 0
          else Except.error (FetchError.nonTransient c3))
        = Except.error FetchError.maxRetries
    rw [ht3]
    simp only [if_true]
    rfl

/-- Witness for C10: the always-transient provider exhausts the three
attempts, and the fatally failing provider is re-raised at once. -/
theorem transient_error_classification_witness :
    import_historical_data fetch_fail_all
        = Except.error FetchError.maxRetries ∧
    import_historical_data fetch_fail_fatal
        = Except.error (FetchError.nonTransient (-2010)) :=
  ⟨transient_error_classification.2.2 ℕ fetch_fail_all (-1000) (-1001) (-1021)
      rfl rfl rfl (by decide) (by decide) (by decide),
   transient_error_classification.2.1 ℕ fetch_fail_fatal (-2010) rfl
      (by decide)⟩

end Backtester
